import Mathlib

/-!
A shallow embedding of the core of a small VSL compiler (symbol binding,
constant folding, unreachable-code elimination, x86-64 code generation),
together with theorems checking the natural-language specification
against the code.

Sources embedded here:
- syntax tree and optimizer  (`tree.c`, given as `src/unnamed/part_002`)
- symbol binding             (`src/ps4/ps4_skeleton/src/symbols.c`)
- code generation            (`src/ps5/ps5_skeleton/src/generator.c`)

C `node_t *` pointers are modelled as `Option Node`; machine integers
(`int64_t`, `int`) are modelled as `Int`, with explicit 32-bit wrapping
where the C code converts through `int`.  Fatal errors (`exit(EXIT_FAILURE)`)
are modelled with `Except Unit`.  Places where the C code would dereference
a null pointer or index out of bounds (undefined behavior, unreachable for
parser-produced trees) are completed totally; each such completion is noted
in a comment.
-/

namespace Vslc

/-- Node kinds of the AST, from `nodetypes.h` as used by the sources. -/
inductive NodeType where
  | LIST
  | FUNCTION
  | GLOBAL_DECLARATION
  | DECLARATION
  | BLOCK
  | IF_STATEMENT
  | WHILE_STATEMENT
  | RETURN_STATEMENT
  | BREAK_STATEMENT
  | PRINT_STATEMENT
  | ASSIGNMENT_STATEMENT
  | OPERATOR
  | IDENTIFIER
  | NUMBER_LITERAL
  | STRING_LITERAL
  | STRING_LIST_REFERENCE
  | ARRAY_INDEXING
  | FUNCTION_CALL
deriving DecidableEq, Repr

/-- Symbol kinds, from `symtype_t` as used by `symbols.c`. -/
inductive SymType where
  | SYMBOL_GLOBAL_VAR
  | SYMBOL_GLOBAL_ARRAY
  | SYMBOL_FUNCTION
  | SYMBOL_PARAMETER
  | SYMBOL_LOCAL_VAR
deriving DecidableEq, Repr

/-- One bound symbol (`symbol_t`).  The C struct carries a back-reference
`node` to the declaring AST node; the only attribute the generator ever reads
through that back-reference is `node->children[1]->n_children`
(`FUNC_PARAM_COUNT`), so the back-reference is modelled by storing that
parameter count directly.  `function_symtable` is modelled separately
(see `CreateTablesResult`). -/
structure Symbol where
  name : String
  symtype : SymType
  sequence_number : Nat
  param_count : Nat := 0
deriving DecidableEq, Repr

/-- The variant payload of a node (C union `data`) plus the `symbol`
annotation field written by the binder.  The C union is modelled as a
struct; only the field matching the node's type is meaningful. -/
structure NodeData where
  operator : String := ""
  identifier : String := ""
  number_literal : Int := 0
  string_literal : String := ""
  string_list_index : Nat := 0
  symbol : Option Symbol := none
deriving DecidableEq, Repr

/-- An AST node (`node_t`): a type tag, an ordered list of child pointers
(each possibly null), and the payload. -/
inductive Node : Type where
  | mk (ty : NodeType) (children : List (Option Node)) (data : NodeData)

/-- The node's type tag. -/
def Node.ty : Node → NodeType
  | .mk t _ _ => t

/-- The node's list of child pointers. -/
def Node.children : Node → List (Option Node)
  | .mk _ c _ => c

/-- The node's payload. -/
def Node.data : Node → NodeData
  | .mk _ _ d => d

@[simp] theorem Node.ty_mk (t : NodeType) (c : List (Option Node)) (d : NodeData) :
    (Node.mk t c d).ty = t := rfl

@[simp] theorem Node.children_mk (t : NodeType) (c : List (Option Node)) (d : NodeData) :
    (Node.mk t c d).children = c := rfl

@[simp] theorem Node.data_mk (t : NodeType) (c : List (Option Node)) (d : NodeData) :
    (Node.mk t c d).data = d := rfl

/-! ## Constant folding (`tree.c`) -/

/-- Conversion of a mathematical integer through the C type `int`:
wrap into the interval `[-2^31, 2^31)`.  The folding helpers in `tree.c`
(`add`, `subtract`, ...) declare their parameters with type `int`, so every
`int64_t` operand passes through this conversion (gcc/clang define the
out-of-range conversion as wrapping), and their result travels back through
the `int`-returning function-pointer type `operation_func`. -/
def toInt32 (x : Int) : Int := (x + 2 ^ 31) % 2 ^ 32 - 2 ^ 31

/-- `int64_t add(int a, int b) { return a + b; }` -/
def add (a b : Int) : Int := toInt32 (toInt32 a + toInt32 b)

/-- `int64_t subtract(int a, int b) { return a - b; }` -/
def subtract (a b : Int) : Int := toInt32 (toInt32 a - toInt32 b)

/-- `int64_t multiply(int a, int b) { return a * b; }` -/
def multiply (a b : Int) : Int := toInt32 (toInt32 a * toInt32 b)

/-- `int64_t divide(int a, int b) { return a / b; }` (C `int` division
truncates toward zero; division by zero is undefined in C and modelled by
`Int.div`'s zero result). -/
def divide (a b : Int) : Int := toInt32 (Int.tdiv (toInt32 a) (toInt32 b))

/-- `int64_t equal(int a, int b) { return a == b; }` -/
def equal (a b : Int) : Int := if toInt32 a = toInt32 b then 1 else 0

/-- `int64_t not_equal(int a, int b) { return a != b; }` -/
def not_equal (a b : Int) : Int := if toInt32 a = toInt32 b then 0 else 1

/-- `int64_t less_than(int a, int b) { return a < b; }` -/
def less_than (a b : Int) : Int := if toInt32 a < toInt32 b then 1 else 0

/-- `int64_t less_than_or_equal(int a, int b) { return a <= b; }` -/
def less_than_or_equal (a b : Int) : Int := if toInt32 a ≤ toInt32 b then 1 else 0

/-- `int64_t greater_than(int a, int b) { return a > b; }` -/
def greater_than (a b : Int) : Int := if toInt32 b < toInt32 a then 1 else 0

/-- `int64_t greater_than_or_equal(int a, int b) { return a >= b; }` -/
def greater_than_or_equal (a b : Int) : Int := if toInt32 b ≤ toInt32 a then 1 else 0

/-- `int64_t negate(int a, int _) { return -a; }` -/
def negate (a _b : Int) : Int := toInt32 (-toInt32 a)

/-- `int64_t not(int a, int _) { return !a; }` -/
def not (a _b : Int) : Int := if toInt32 a = 0 then 1 else 0

/-- One row of `operator_to_func_table`: operator text, operand count,
operation function. -/
structure OperatorMapping where
  operator : String
  n_operands : Nat
  func : Int → Int → Int

/-- The operator dispatch table `operator_to_func_table` from `tree.c`. -/
def operator_to_func_table : List OperatorMapping :=
  [⟨"+", 2, add⟩,
   ⟨"-", 2, subtract⟩,
   ⟨"*", 2, multiply⟩,
   ⟨"/", 2, divide⟩,
   ⟨"==", 2, equal⟩,
   ⟨"!=", 2, not_equal⟩,
   ⟨"<", 2, less_than⟩,
   ⟨"<=", 2, less_than_or_equal⟩,
   ⟨">", 2, greater_than⟩,
   ⟨">=", 2, greater_than_or_equal⟩,
   ⟨"-", 1, negate⟩,
   ⟨"!", 1, not⟩]

/-- `get_operator_func`: first table row matching operator text and operand
count, or none. -/
def get_operator_func (operator : String) (n_operands : Nat) :
    Option (Int → Int → Int) :=
  (operator_to_func_table.find?
    (fun m => m.operator = operator ∧ m.n_operands = n_operands)).map (·.func)

/-- A fresh `NUMBER_LITERAL` node carrying the given value, as built by
`node_create(NUMBER_LITERAL, 0)` followed by setting `data.number_literal`. -/
def number_literal_node (value : Int) : Node :=
  Node.mk .NUMBER_LITERAL [] { number_literal := value }

/-- `node->children[i]->data.number_literal`, total (0 for a missing or null
child, which the C code would dereference — unreachable after the
all-literal check). -/
def child_number (node : Node) (i : Nat) : Int :=
  match node.children.getD i none with
  | some c => c.data.number_literal
  | none => 0

/-- `constant_fold_operator` from `tree.c`: if every child is a
`NUMBER_LITERAL`, look up the operation for (operator text, arity) and
replace the node by a fresh literal node with the computed value; otherwise
(or if the lookup fails) return the node unchanged. -/
def constant_fold_operator (node : Node) : Node :=
  let n_operands := node.children.length
  if node.children.all
      (fun c => match c with
        | some ch => decide (ch.ty = NodeType.NUMBER_LITERAL)
        | none => false) then
    let value1 := child_number node 0
    let value2 := if n_operands > 1 then child_number node 1 else 0
    match get_operator_func node.data.operator n_operands with
    | none => node
    | some func => number_literal_node (func value1 value2)
  else
    node

/-- `constant_fold_if` from `tree.c`: with a literal condition, replace the
`IF_STATEMENT` node by its then-branch (condition nonzero), its else-branch
(condition zero, third child present), or null (condition zero, no
else-branch).  A node with no children would be a null dereference in C;
modelled as returning the node unchanged. -/
def constant_fold_if (node : Node) : Option Node :=
  match node.children.getD 0 none with
  | none => some node
  | some condition_node =>
    if condition_node.ty ≠ NodeType.NUMBER_LITERAL then
      some node
    else
      let condition := condition_node.data.number_literal
      if condition ≠ 0 then
        node.children.getD 1 none
      else
        if node.children.length < 3 then
          none
        else
          node.children.getD 2 none

/-- `constant_fold_while` from `tree.c`: with a literal, zero condition the
whole loop is deleted (null); any other condition leaves the node
unchanged. -/
def constant_fold_while (node : Node) : Option Node :=
  match node.children.getD 0 none with
  | none => some node
  | some condition_node =>
    if condition_node.ty ≠ NodeType.NUMBER_LITERAL then
      some node
    else
      if condition_node.data.number_literal = 0 then
        none
      else
        some node

/-- `constant_fold_subtree` from `tree.c`: fold all children bottom-up, then
dispatch on the node type (`OPERATOR`, `IF_STATEMENT`, `WHILE_STATEMENT`). -/
def constant_fold_subtree : Option Node → Option Node
  | none => none
  | some (Node.mk ty cs data) =>
    let cs' := cs.attach.map (fun c => constant_fold_subtree c.1)
    let node' := Node.mk ty cs' data
    match ty with
    | .OPERATOR => some (constant_fold_operator node')
    | .IF_STATEMENT => constant_fold_if node'
    | .WHILE_STATEMENT => constant_fold_while node'
    | _ => some node'
decreasing_by
  have h1 := List.sizeOf_lt_of_mem c.2
  simp only [Option.some.sizeOf_spec, Node.mk.sizeOf_spec]
  omega

/-! ## Unreachable-code elimination (`tree.c`) -/

/-- The synthesized `return 0` statement built by
`remove_unreachable_code_syntax_tree`. -/
def return_zero_node : Node :=
  Node.mk .RETURN_STATEMENT [some (number_literal_node 0)] {}

mutual

/-- `remove_unreachable_code` from `tree.c`.  The C function mutates the
subtree in place and returns whether the statement is guaranteed to
interrupt execution (return or break); modelled as returning the updated
subtree together with that flag.  `IF_STATEMENT` nodes with fewer than two
children and `WHILE_STATEMENT` nodes with fewer than two children would be
out-of-bounds child accesses in C (unreachable for parser-produced trees);
they are completed as unchanged, non-interrupting.  A `BLOCK` whose last
child is missing or null would be a null dereference in C; completed the
same way. -/
def remove_unreachable_code : Option Node → Option Node × Bool
  | none => (none, false)
  | some (Node.mk .RETURN_STATEMENT cs d) => (some (Node.mk .RETURN_STATEMENT cs d), true)
  | some (Node.mk .BREAK_STATEMENT cs d) => (some (Node.mk .BREAK_STATEMENT cs d), true)
  | some (Node.mk .IF_STATEMENT [c0, c1] d) =>
    -- If the if only has a then-statement, it can not terminate execution
    let r := remove_unreachable_code c1
    (some (Node.mk .IF_STATEMENT [c0, r.1] d), false)
  | some (Node.mk .IF_STATEMENT (c0 :: c1 :: c2 :: rest) d) =>
    -- Interrupting iff both the then-statement and the else-statement are
    let then_result := remove_unreachable_code c1
    let else_result := remove_unreachable_code c2
    (some (Node.mk .IF_STATEMENT (c0 :: then_result.1 :: else_result.1 :: rest) d),
      then_result.2 && else_result.2)
  | some (Node.mk .IF_STATEMENT cs d) => (some (Node.mk .IF_STATEMENT cs d), false)
  | some (Node.mk .WHILE_STATEMENT (c0 :: c1 :: rest) d) =>
    -- The body is cleaned, but a while never guarantees interruption
    let r := remove_unreachable_code c1
    (some (Node.mk .WHILE_STATEMENT (c0 :: r.1 :: rest) d), false)
  | some (Node.mk .WHILE_STATEMENT cs d) => (some (Node.mk .WHILE_STATEMENT cs d), false)
  | some (Node.mk .BLOCK cs d) =>
    -- The list of statements in a BLOCK is always the last child node
    match h : cs.getLast? with
    | some (some (Node.mk lty stmts ld)) =>
      let r := remove_unreachable_code_list stmts
      (some (Node.mk .BLOCK (cs.dropLast ++ [some (Node.mk lty r.1 ld)]) d), r.2)
    | _ => (some (Node.mk .BLOCK cs d), false)
  | some (Node.mk ty cs d) => (some (Node.mk ty cs d), false)
termination_by n => sizeOf n
decreasing_by
  all_goals first
  | (simp only [Option.some.sizeOf_spec, Node.mk.sizeOf_spec, List.cons.sizeOf_spec]
     omega)
  | (have hm := List.sizeOf_lt_of_mem (List.mem_of_mem_getLast? h)
     simp only [Option.some.sizeOf_spec, Node.mk.sizeOf_spec, List.cons.sizeOf_spec] at hm ⊢
     omega)

/-- The statement-list scan inside `remove_unreachable_code`'s `BLOCK` case:
process statements in order; the first interrupting statement truncates the
list (the following statements are destroyed) and makes the list
interrupting. -/
def remove_unreachable_code_list :
    List (Option Node) → List (Option Node) × Bool
  | [] => ([], false)
  | statement :: rest =>
    let r := remove_unreachable_code statement
    if r.2 then
      ([r.1], true)
    else
      let rr := remove_unreachable_code_list rest
      (r.1 :: rr.1, rr.2)
termination_by l => sizeOf l
decreasing_by
  all_goals simp only [List.cons.sizeOf_spec]
  all_goals omega

end

/-- `remove_unreachable_code_syntax_tree` from `tree.c`: for each `FUNCTION`
child of the root, clean its body (third child); if the body is not
guaranteed to interrupt, wrap it as
`BLOCK [ LIST [ body ; return 0 ] ]`.  A `FUNCTION` child with fewer than
three children would be an out-of-bounds access in C (the source checks the
shape in `create_tables`, not here); completed as unchanged. -/
def remove_unreachable_code_syntax_tree (root : Node) : Node :=
  Node.mk root.ty
    (root.children.map (fun child =>
      match child with
      | some (Node.mk .FUNCTION (c0 :: c1 :: function_body :: rest) d) =>
        let r := remove_unreachable_code function_body
        if r.2 then
          some (Node.mk .FUNCTION (c0 :: c1 :: r.1 :: rest) d)
        else
          let statement_list := Node.mk .LIST [r.1, some return_zero_node] {}
          let new_function_body := Node.mk .BLOCK [some statement_list] {}
          some (Node.mk .FUNCTION (c0 :: c1 :: some new_function_body :: rest) d)
      | other => other))
    root.data

/-! ## Symbol binding (`symbols.c`)

The hashmap and symbol-table primitives (`symbol_hashmap_init`,
`symbol_hashmap_lookup`, `symbol_table_init`, `symbol_table_insert`,
declared in the skeleton but implemented in a `symbol_table.c` that is not
among the given sources) are modelled from the spec, as noted on each. -/

/-- One scope map of the chained symbol hashmap: an association list from
names to symbols (newest first). -/
abbrev ScopeLevel := List (String × Symbol)

/-- Modelled from the spec: `symbol_hashmap_lookup` over the chain of scope
maps (`symbol_table.c` is missing from the sources).  "Lookup walks fallback
links until found or exhausted"; the chain lists the current map first and
the global table's map last. -/
def symbol_hashmap_lookup : List ScopeLevel → String → Option Symbol
  | [], _ => none
  | level :: backup, name =>
    match level.find? (fun entry => entry.1 = name) with
    | some entry => some entry.2
    | none => symbol_hashmap_lookup backup name

/-- Modelled from the spec: `symbol_table_t`, the ordered sequence of
inserted symbols plus the table's current hashmap chain. -/
structure SymbolTable where
  symbols : List Symbol
  hashmap : List ScopeLevel
deriving DecidableEq, Repr

/-- Modelled from the spec: `symbol_table_insert` (`symbol_table.c` is
missing from the sources).  The symbol receives "a monotonically increasing
sequence number scoped to its owning table" — the table's current symbol
count — and is appended to the table; it is also entered into the current
(innermost) hashmap level.  "Re-declaration in the same hashmap level is a
collision error" (`INSERT_COLLISION`), modelled as `none`.  An empty chain
cannot occur (every table is created with one map); completed as a
collision. -/
def symbol_table_insert (table : SymbolTable) (name : String) (symtype : SymType)
    (param_count : Nat) : Option (SymbolTable × Symbol) :=
  match table.hashmap with
  | [] => none
  | level :: backup =>
    if level.any (fun entry => entry.1 = name) then
      none
    else
      let symbol : Symbol :=
        { name := name, symtype := symtype,
          sequence_number := table.symbols.length, param_count := param_count }
      some ({ symbols := table.symbols ++ [symbol],
              hashmap := ((name, symbol) :: level) :: backup }, symbol)

/-- `create_symbol` from `symbols.c`: allocate a symbol and insert it; a
collision yields `NULL` (here `none`).  The C function also stores the
declaring node; the only attribute ever read back through it is the
parameter count (for functions), passed here directly. -/
def create_symbol (name : String) (symtype : SymType) (param_count : Nat)
    (symbol_table : SymbolTable) : Option (SymbolTable × Symbol) :=
  symbol_table_insert symbol_table name symtype param_count

/-- The binder's mutable state: the function's local symbol table
(`local_symbols`) and the global string list (`string_list` in
`symbols.c`). -/
structure BindState where
  local_symbols : SymbolTable
  string_list : List String
deriving DecidableEq, Repr

/-- `add_string` from `symbols.c`: append the string to the global string
list and return its position (the previous length). -/
def add_string (st : BindState) (string : String) : BindState × Nat :=
  ({ st with string_list := st.string_list ++ [string] }, st.string_list.length)

/-- The inner loop of `bind_names`'s `BLOCK` case over one `LIST` of
`IDENTIFIER` nodes: declare each as a local variable, in order.  A fatal
collision ("Error creating local variable symbol" + `exit`) is `.error`.
A null identifier node would be a null dereference in C (unreachable for
parser-produced trees); completed as skipped. -/
def declare_identifiers (st : BindState) :
    List (Option Node) → Except Unit BindState
  | [] => .ok st
  | none :: rest => declare_identifiers st rest
  | some identifier_node :: rest =>
    match create_symbol identifier_node.data.identifier .SYMBOL_LOCAL_VAR 0
        st.local_symbols with
    | none => .error ()
    | some (table', _) =>
      declare_identifiers { st with local_symbols := table' } rest

/-- The outer loop of `bind_names`'s `BLOCK` case over the `LIST` of
declaration `LIST`s (the block's first child when it has two children). -/
def declare_groups (st : BindState) :
    List (Option Node) → Except Unit BindState
  | [] => .ok st
  | none :: rest => declare_groups st rest
  | some identifier_list_node :: rest =>
    match declare_identifiers st identifier_list_node.children with
    | .error e => .error e
    | .ok st1 => declare_groups st1 rest

/-- Declaration handling for a block's first child (a `LIST` of `LIST`s of
`IDENTIFIER`s).  A null first child would be a null dereference in C;
completed as a no-op. -/
def declare_block_locals (st : BindState) :
    Option Node → Except Unit BindState
  | none => .ok st
  | some first_child => declare_groups st first_child.children

mutual

/-- `bind_names` from `symbols.c`.  The C function mutates the table, the
string list and the tree in place; modelled as returning the new state and
the rewritten subtree.  Cases:
- null node (removed by the optimizer): no-op;
- `BLOCK`: push a fresh scope map whose backup is the current map; when the
  block has exactly two children the first is the declaration list and only
  the remaining children are walked; otherwise all children are walked;
  afterwards the saved scope map is restored (pop);
- `IDENTIFIER`: look the name up through the chain; not found is a fatal
  binding error, otherwise the symbol is attached to the node;
- `STRING_LITERAL`: move the string into the global string list and turn the
  node into a `STRING_LIST_REFERENCE` carrying its index;
- anything else: walk all children. -/
def bind_names (st : BindState) : Option Node → Except Unit (BindState × Option Node)
  | none => .ok (st, none)
  | some (Node.mk .BLOCK [c0, c1] d) =>
    let pushed : BindState :=
      { st with local_symbols :=
          { st.local_symbols with hashmap := [] :: st.local_symbols.hashmap } }
    match declare_block_locals pushed c0 with
    | .error e => .error e
    | .ok st1 =>
      match bind_names st1 c1 with
      | .error e => .error e
      | .ok (st2, c1') =>
        .ok ({ st2 with local_symbols :=
                { st2.local_symbols with hashmap := st.local_symbols.hashmap } },
             some (Node.mk .BLOCK [c0, c1'] d))
  | some (Node.mk .BLOCK cs d) =>
    let pushed : BindState :=
      { st with local_symbols :=
          { st.local_symbols with hashmap := [] :: st.local_symbols.hashmap } }
    match bind_names_list pushed cs with
    | .error e => .error e
    | .ok (st2, cs') =>
      .ok ({ st2 with local_symbols :=
              { st2.local_symbols with hashmap := st.local_symbols.hashmap } },
           some (Node.mk .BLOCK cs' d))
  | some (Node.mk .IDENTIFIER cs d) =>
    match symbol_hashmap_lookup st.local_symbols.hashmap d.identifier with
    | none => .error ()
    | some lookup_symbol =>
      .ok (st, some (Node.mk .IDENTIFIER cs { d with symbol := some lookup_symbol }))
  | some (Node.mk .STRING_LITERAL cs d) =>
    let r := add_string st d.string_literal
    .ok (r.1, some (Node.mk .STRING_LIST_REFERENCE cs
          { d with string_list_index := r.2 }))
  | some (Node.mk ty cs d) =>
    match bind_names_list st cs with
    | .error e => .error e
    | .ok (st1, cs') => .ok (st1, some (Node.mk ty cs' d))
termination_by n => sizeOf n
decreasing_by
  all_goals simp only [Option.some.sizeOf_spec, Node.mk.sizeOf_spec, List.cons.sizeOf_spec]
  all_goals omega

/-- The child loops of `bind_names`, walking a list of children in order
while threading the binder state. -/
def bind_names_list (st : BindState) :
    List (Option Node) → Except Unit (BindState × List (Option Node))
  | [] => .ok (st, [])
  | c :: rest =>
    match bind_names st c with
    | .error e => .error e
    | .ok (st1, c') =>
      match bind_names_list st1 rest with
      | .error e => .error e
      | .ok (st2, rest') => .ok (st2, c' :: rest')
termination_by l => sizeOf l
decreasing_by
  all_goals simp only [List.cons.sizeOf_spec]
  all_goals omega

end

/-- The inner loop of `find_globals`'s `GLOBAL_DECLARATION` case: declare
each identifier (global variable) or array-indexing node (global array,
named by its first child) in the global table; other node kinds are
skipped.  A collision ("Error creating global variable symbol" + `exit`) is
`.error`.  Null list entries or a null array name child would be null
dereferences in C; completed as skipped. -/
def find_globals_declarations (global_symbols : SymbolTable) :
    List (Option Node) → Except Unit SymbolTable
  | [] => .ok global_symbols
  | none :: rest => find_globals_declarations global_symbols rest
  | some declaration_list_child :: rest =>
    match declaration_list_child.ty with
    | .IDENTIFIER =>
      match create_symbol declaration_list_child.data.identifier
          .SYMBOL_GLOBAL_VAR 0 global_symbols with
      | none => .error ()
      | some (t, _) => find_globals_declarations t rest
    | .ARRAY_INDEXING =>
      match declaration_list_child.children.getD 0 none with
      | none => find_globals_declarations global_symbols rest
      | some array_identifier_node =>
        match create_symbol array_identifier_node.data.identifier
            .SYMBOL_GLOBAL_ARRAY 0 global_symbols with
        | none => .error ()
        | some (t, _) => find_globals_declarations t rest
    | _ => find_globals_declarations global_symbols rest

/-- `FUNC_PARAM_COUNT` from `generator.c`:
`function->node->children[1]->n_children`.  A missing or null parameter
list would be a null dereference in C; completed as 0. -/
def func_param_count_of_node (function_node : Node) : Nat :=
  match function_node.children.getD 1 none with
  | some parameter_list => parameter_list.children.length
  | none => 0

/-- `find_globals` from `symbols.c`: scan the root's children, entering
global variables, global arrays and functions into the global symbol table.
The node back-references stored on function symbols are modelled by the
association list from function name to function node (names in one hashmap
level are unique).  A malformed declaration or function node (no children)
is a fatal error.  Null top-level children would be null dereferences in C;
completed as skipped. -/
def find_globals_children (global_symbols : SymbolTable)
    (function_nodes : List (String × Node)) :
    List (Option Node) → Except Unit (SymbolTable × List (String × Node))
  | [] => .ok (global_symbols, function_nodes)
  | none :: rest => find_globals_children global_symbols function_nodes rest
  | some global_child_node :: rest =>
    match global_child_node.ty with
    | .GLOBAL_DECLARATION =>
      match global_child_node.children with
      | [] => .error ()
      | declaration_list_node :: _ =>
        -- Global declaration always has a LIST node as its only child;
        -- a null one would be dereferenced in C, completed as empty
        let entries := match declaration_list_node with
          | some n => n.children
          | none => []
        match find_globals_declarations global_symbols entries with
        | .error e => .error e
        | .ok t => find_globals_children t function_nodes rest
    | .FUNCTION =>
      match global_child_node.children with
      | [] => .error ()
      | function_identifier_node :: _ =>
        -- Function always has an IDENTIFIER node as its first child;
        -- a null one would be dereferenced in C, completed as ""
        let name := match function_identifier_node with
          | some n => n.data.identifier
          | none => ""
        match create_symbol name .SYMBOL_FUNCTION
            (func_param_count_of_node global_child_node) global_symbols with
        | none => .error ()
        | some (t, _) =>
          find_globals_children t (function_nodes ++ [(name, global_child_node)]) rest
    | _ => find_globals_children global_symbols function_nodes rest

/-- The initial global symbol table: `symbol_table_init()` gives an empty
table with one (empty) hashmap. -/
def symbol_table_init : SymbolTable := { symbols := [], hashmap := [[]] }

/-- `find_globals` from `symbols.c`, over the whole root. -/
def find_globals (root : Node) :
    Except Unit (SymbolTable × List (String × Node)) :=
  find_globals_children symbol_table_init [] root.children

/-- The parameter loop of `create_tables`: each parameter node must be an
`IDENTIFIER` ("wrong node type on parameter!" is fatal) and is declared as a
`SYMBOL_PARAMETER` in the function's local table, left to right; a collision
is fatal.  A null parameter node would be a null dereference in C; completed
as a fatal error (the process dies either way). -/
def create_parameter_symbols (function_symtable : SymbolTable) :
    List (Option Node) → Except Unit SymbolTable
  | [] => .ok function_symtable
  | none :: _ => .error ()
  | some parameter_node :: rest =>
    if parameter_node.ty ≠ NodeType.IDENTIFIER then
      .error ()
    else
      match create_symbol parameter_node.data.identifier .SYMBOL_PARAMETER 0
          function_symtable with
      | none => .error ()
      | some (t, _) => create_parameter_symbols t rest

/-- The per-function local symbol table and bound body produced by
`create_tables` (the C code hangs the table off the function symbol's
`function_symtable` field and rewrites the body in place). -/
structure FunctionBinding where
  name : String
  param_names : List String
  table : SymbolTable
  body : Option Node

/-- The body of `create_tables`'s per-function work: check the function node
shape (`n_children < 3` is fatal), create parameter symbols in a fresh local
table whose hashmap's backup is the global table's hashmap, then
`bind_names` the function body (third child). -/
def bind_function (global_hashmap : List ScopeLevel) (string_list : List String)
    (name : String) (function_node : Node) :
    Except Unit (FunctionBinding × List String) :=
  if function_node.children.length < 3 then
    .error ()
  else
    let parameter_list_children :=
      match function_node.children.getD 1 none with
      | some parameter_list_node => parameter_list_node.children
      | none => []      -- null parameter list: dereferenced in C
    let function_symtable : SymbolTable := { symbols := [], hashmap := [[]] ++ global_hashmap }
    match create_parameter_symbols function_symtable parameter_list_children with
    | .error e => .error e
    | .ok table1 =>
      match bind_names { local_symbols := table1, string_list := string_list }
          (function_node.children.getD 2 none) with
      | .error e => .error e
      | .ok (st2, body') =>
        .ok ({ name := name,
               param_names := parameter_list_children.map (fun p =>
                 match p with
                 | some n => n.data.identifier
                 | none => ""),
               table := st2.local_symbols,
               body := body' }, st2.string_list)

/-- The loop of `create_tables` over the global table's symbols: every
`SYMBOL_FUNCTION` gets its local table built and its body bound; other
symbols are skipped.  The symbol's node back-reference is recovered from the
name-to-node map built by `find_globals` (a missing entry cannot occur and
is completed as skipped). -/
def create_tables_functions (global_hashmap : List ScopeLevel)
    (function_nodes : List (String × Node)) (string_list : List String) :
    List Symbol → Except Unit (List FunctionBinding × List String)
  | [] => .ok ([], string_list)
  | symbol :: rest =>
    if symbol.symtype = SymType.SYMBOL_FUNCTION then
      match function_nodes.find? (fun e => e.1 = symbol.name) with
      | none => create_tables_functions global_hashmap function_nodes string_list rest
      | some (_, function_node) =>
        match bind_function global_hashmap string_list symbol.name function_node with
        | .error e => .error e
        | .ok (binding, string_list') =>
          match create_tables_functions global_hashmap function_nodes string_list' rest with
          | .error e => .error e
          | .ok (bindings, string_list2) => .ok (binding :: bindings, string_list2)
    else
      create_tables_functions global_hashmap function_nodes string_list rest

/-- The result of `create_tables`: the global table, one binding per
function, and the global string list. -/
structure CreateTablesResult where
  global_symbols : SymbolTable
  function_bindings : List FunctionBinding
  string_list : List String

/-- `create_tables` from `symbols.c`: `find_globals`, then build each
function's local symbol table (parameters first, then the body's locals via
`bind_names`). -/
def create_tables (root : Node) : Except Unit CreateTablesResult :=
  match find_globals root with
  | .error e => .error e
  | .ok (global_symbols, function_nodes) =>
    match create_tables_functions global_symbols.hashmap function_nodes []
        global_symbols.symbols with
    | .error e => .error e
    | .ok (bindings, string_list) =>
      .ok { global_symbols := global_symbols,
            function_bindings := bindings,
            string_list := string_list }

/-! ## Code generation (`generator.c`)

Emission to stdout is modelled as a list of emitted instructions.  The
text-emitting macros come from `emit.h` (not among the sources), so
instructions are abstracted: dedicated constructors for pushes, pops, moves,
jumps and the `EMIT("call .%s", ...)` VSL function call; every other emitted
line is kept as its (AT&T syntax) text. -/

/-- One emitted assembly line. -/
inductive Instr where
  | pushq (operand : String)
  | popq (operand : String)
  | movq (src dst : String)
  | jmp (label : String)
  | call_function (label : String)
  | text (line : String)
deriving DecidableEq, Repr

/-- `NUM_REGISTER_PARAMS`: the System V calling convention passes the first
6 integer parameters in registers. -/
def NUM_REGISTER_PARAMS : Nat := 6

/-- `REGISTER_PARAMS` from `generator.c`. -/
def REGISTER_PARAMS : List String := ["%rdi", "%rsi", "%rdx", "%rcx", "%r8", "%r9"]

/-- `find_max` from `generator.c`. -/
def find_max (a b : Nat) : Nat := if a > b then a else b

/-- `find_min` from `generator.c`. -/
def find_min (a b : Nat) : Nat := if a < b then a else b

/-- `get_stack_offset` from `generator.c`, verbatim: parameters below the
register count get `-(sequence_number+1)*8`; later parameters get the
caller-pushed positive offset; locals get an offset past
`find_max(param_count, NUM_REGISTER_PARAMS)` callee-pushed slots.
`current_function` is the C global of the same name;
`FUNC_PARAM_COUNT(current_function)` is its `param_count` field. -/
def get_stack_offset (current_function : Symbol) (sequence_number : Nat) : Int :=
  let param_count := current_function.param_count
  if sequence_number < param_count then
    if sequence_number > 5 then
      ((sequence_number : Int) - 5) * 8 + 8
    else
      ((sequence_number : Int) + 1) * (-8)
  else
    let num_of_callee_pushed_params := find_max param_count NUM_REGISTER_PARAMS
    ((num_of_callee_pushed_params : Int) + ((sequence_number : Int) - (param_count : Int)) + 1) * (-8)

/-- The comparison `setCC` instruction chosen by `generate_expression` for a
relational operator, if the operator is known. -/
def comparison_set_instr (operator : String) : Option Instr :=
  if operator = "<" then some (.text "setl %al")
  else if operator = "<=" then some (.text "setle %al")
  else if operator = ">" then some (.text "setg %al")
  else if operator = ">=" then some (.text "setge %al")
  else if operator = "==" then some (.text "sete %al")
  else if operator = "!=" then some (.text "setne %al")
  else none

/-- The instructions `generate_expression` emits for a binary operator after
the left operand has been popped into `%rcx` and the right operand is in
`%rax`.  An unknown operator hits `assert(false)` in C, modelled as a
marker line. -/
def binary_operator_instrs (operator : String) : List Instr :=
  if operator = "+" then [.text "addq %rcx, %rax"]
  else if operator = "-" then [.text "subq %rax, %rcx", .movq "%rcx" "%rax"]
  else if operator = "*" then [.text "imulq %rcx, %rax"]
  else if operator = "/" then
    [.text "cqo", .movq "%rax" "%r8", .movq "%rcx" "%rax", .text "idivq %r8"]
  else
    [.text "cmpq %rax, %rcx"] ++
    (match comparison_set_instr operator with
     | some set_instr => [set_instr, .text "movzbq %al, %rax"]
     | none => [.text "assert failed: Unknown binary operator"])

/-- The instructions `generate_expression` emits for a unary operator once
the operand is in `%rax`. -/
def unary_operator_instrs (operator : String) : List Instr :=
  if operator = "-" then [.text "negq %rax"]
  else if operator = "!" then
    [.text "test %rax, %rax", .text "sete %al", .text "movzbq %al, %rax"]
  else [.text "assert failed: Unknown unary operator"]

/-- Any node is strictly larger than its child list (used for termination
of the generator's recursion through argument lists). -/
theorem Node.sizeOf_children_lt (n : Node) : sizeOf n.children < sizeOf n := by
  cases n with
  | mk t c d => simp only [Node.children_mk, Node.mk.sizeOf_spec]; omega

/-- A placeholder symbol for completions of C null dereferences. -/
def null_symbol : Symbol := { name := "", symtype := .SYMBOL_FUNCTION, sequence_number := 0 }

mutual

/-- `generate_expression` from `generator.c`: code that leaves the value of
the expression in `%rax`.  A null expression returns immediately.  Nodes
missing the children the C code indexes, or carrying a null symbol where the
C code dereferences one, are undefined behavior in C and completed with
empty emission (or `null_symbol`). -/
def generate_expression (current_function : Symbol) : Option Node → List Instr
  | none => []
  | some (Node.mk .NUMBER_LITERAL _ d) =>
    -- EMIT("movq $%d, %s", (int)expression->data.number_literal, RAX):
    -- the %d conversion takes the value through a 32-bit int
    [.movq ("$" ++ toString (toInt32 d.number_literal)) "%rax"]
  | some (Node.mk .IDENTIFIER _ d) =>
    match d.symbol with
    | none => []
    | some identifier_symbol =>
      if identifier_symbol.symtype = SymType.SYMBOL_GLOBAL_VAR then
        [.movq ("." ++ d.identifier ++ "(%rip)") "%rax"]
      else
        [.movq (toString (get_stack_offset current_function
            identifier_symbol.sequence_number) ++ "(%rbp)") "%rax"]
  | some (Node.mk .ARRAY_INDEXING (array_identifier_node :: index_node :: _) _) =>
    let array_name := match array_identifier_node with
      | some n => n.data.identifier
      | none => ""
    [.pushq "%rcx"] ++
    generate_expression current_function index_node ++
    [.text ("leaq ." ++ array_name ++ "(%rip), %rcx"),
     .text "leaq (%rcx, %rax, 8), %rcx",
     .movq "(%rcx)" "%rax",
     .popq "%rcx"]
  | some (Node.mk .ARRAY_INDEXING _ _) => []
  | some (Node.mk .OPERATOR (c0 :: c1 :: _) d) =>
    generate_expression current_function c0 ++
    [.pushq "%rax"] ++
    generate_expression current_function c1 ++
    [.popq "%rcx"] ++
    binary_operator_instrs d.operator
  | some (Node.mk .OPERATOR [c0] d) =>
    generate_expression current_function c0 ++ unary_operator_instrs d.operator
  | some (Node.mk .OPERATOR [] _) => []
  | some (Node.mk .FUNCTION_CALL cs d) =>
    generate_function_call current_function (Node.mk .FUNCTION_CALL cs d)
  | some (Node.mk _ _ _) => []
termination_by n => sizeOf n
decreasing_by
  all_goals simp only [Option.some.sizeOf_spec, Node.mk.sizeOf_spec, List.cons.sizeOf_spec]
  all_goals omega

/-- `generate_function_call` from `generator.c`: evaluate and push the
arguments right to left, pop `min(param count, 6)` of them into the argument
registers left to right, and emit `call .name`.  The callee's parameter
count is read through the called function's symbol (`FUNC_PARAM_COUNT`).  A
call node without two children, a null/unbound callee identifier, or a null
argument list are undefined behavior in C; completed with `null_symbol`, no
arguments, or empty emission. -/
def generate_function_call (current_function : Symbol) (call : Node) : List Instr :=
  match call with
  | Node.mk _ (identifier_node :: some parameter_list_node :: _) _ =>
    let function_identifier_symbol := match identifier_node with
      | some n => n.data.symbol.getD null_symbol
      | none => null_symbol
    let param_count := function_identifier_symbol.param_count
    (parameter_list_node.children.reverse.attach.map (fun param_node =>
      generate_expression current_function param_node.1 ++ [Instr.pushq "%rax"])).flatten ++
    ((List.range (find_min param_count NUM_REGISTER_PARAMS)).map (fun j =>
      Instr.popq (REGISTER_PARAMS.getD j ""))) ++
    [.call_function function_identifier_symbol.name]
  | Node.mk _ (identifier_node :: none :: _) _ =>
    let function_identifier_symbol := match identifier_node with
      | some n => n.data.symbol.getD null_symbol
      | none => null_symbol
    ((List.range (find_min function_identifier_symbol.param_count NUM_REGISTER_PARAMS)).map
      (fun j => Instr.popq (REGISTER_PARAMS.getD j ""))) ++
    [.call_function function_identifier_symbol.name]
  | _ => []
termination_by sizeOf call
decreasing_by
  all_goals
    have hm := List.sizeOf_lt_of_mem (List.mem_reverse.mp param_node.2)
    have hc := Node.sizeOf_children_lt parameter_list_node
    simp only [Option.some.sizeOf_spec, Node.mk.sizeOf_spec, List.cons.sizeOf_spec] at hm hc ⊢
    omega

end

/-- `generate_assignment_statement` from `generator.c`: evaluate the right
side into `%rax`, then store to a global label, a stack slot, or an array
element (preserving the right side across index evaluation using the
stack).  Malformed shapes (missing children, null left side, unbound
identifier, a left side that is neither identifier nor array indexing) are
assertion failures or null dereferences in C; completed as empty emission. -/
def generate_assignment_statement (current_function : Symbol) (statement : Node) :
    List Instr :=
  match statement.children with
  | left_side :: right_side :: _ =>
    generate_expression current_function right_side ++
    (match left_side with
     | some (Node.mk .IDENTIFIER _ d) =>
       match d.symbol with
       | none => []
       | some identifier_symbol =>
         if identifier_symbol.symtype = SymType.SYMBOL_GLOBAL_VAR then
           [.movq "%rax" ("." ++ identifier_symbol.name ++ "(%rip)")]
         else
           [.movq "%rax" (toString (get_stack_offset current_function
               identifier_symbol.sequence_number) ++ "(%rbp)")]
     | some (Node.mk .ARRAY_INDEXING (array_child :: index_node :: _) _) =>
       let array_symbol := match array_child with
         | some n => n.data.symbol.getD null_symbol
         | none => null_symbol
       [.pushq "%rax"] ++
       generate_expression current_function index_node ++
       [.pushq "%rax",
        .text ("leaq ." ++ array_symbol.name ++ "(%rip), %rcx"),
        .popq "%rax",
        .text "leaq (%rcx, %rax, 8), %rcx",
        .popq "%rax",
        .movq "%rax" "(%rcx)"]
     | _ => [])
  | _ => []

/-- `generate_print_statement` from `generator.c`: for each child of the
argument list, either load a pooled string's address (string reference) or
evaluate the expression, then call `safe_printf`; terminate with a newline
via `putchar`.  A statement without an argument list or null list entries
are null dereferences in C; completed as empty emission for that part. -/
def generate_print_statement (current_function : Symbol) (statement : Node) :
    List Instr :=
  match statement.children with
  | some list_node :: _ =>
    (list_node.children.map (fun child_node =>
      (match child_node with
       | none => []
       | some (Node.mk .STRING_LIST_REFERENCE _ d) =>
         [.text "leaq strout(%rip), %rdi",
          .text ("leaq string" ++ toString d.string_list_index ++ "(%rip), %rsi"),
          .text "call safe_printf"]
       | some child =>
         generate_expression current_function (some child) ++
         [.text "leaq intout(%rip), %rdi",
          .movq "%rax" "%rsi",
          .text "call safe_printf"]))).flatten ++
    [.movq "$0x0A" "%rdi", .text "call putchar"]
  | _ => []

/-- `generate_return_statement` from `generator.c`: evaluate the returned
expression and jump to the function's epilogue label. -/
def generate_return_statement (current_function : Symbol) (statement : Node) :
    List Instr :=
  generate_expression current_function (statement.children.getD 0 none) ++
  [.jmp ("." ++ current_function.name ++ ".epilogue")]

/-- `generate_statement` from `generator.c`: a null statement returns
immediately; otherwise the `switch` dispatches on the node type (assignment,
print, return, function call; everything else emits nothing), and then —
unconditionally, for every node type — the trailing loop recurses into all
children. -/
def generate_statement (current_function : Symbol) : Option Node → List Instr
  | none => []
  | some (Node.mk ty cs d) =>
    (match ty with
     | .ASSIGNMENT_STATEMENT =>
       generate_assignment_statement current_function (Node.mk .ASSIGNMENT_STATEMENT cs d)
     | .PRINT_STATEMENT =>
       generate_print_statement current_function (Node.mk .PRINT_STATEMENT cs d)
     | .RETURN_STATEMENT =>
       generate_return_statement current_function (Node.mk .RETURN_STATEMENT cs d)
     | .FUNCTION_CALL =>
       generate_function_call current_function (Node.mk .FUNCTION_CALL cs d)
     | _ => []) ++
    (cs.attach.map (fun c => generate_statement current_function c.1)).flatten
termination_by n => sizeOf n
decreasing_by
  have hm := List.sizeOf_lt_of_mem c.2
  simp only [Option.some.sizeOf_spec, Node.mk.sizeOf_spec]
  omega

/-- The sequence of `PUSHQ`s emitted by `generate_function`'s prologue after
`pushq %rbp; movq %rsp, %rbp`: the first `find_min(NUM_REGISTER_PARAMS,
FUNC_PARAM_COUNT(function))` parameter registers in order, then one
zero-initialized slot (`pushq $0`) per `SYMBOL_LOCAL_VAR` in the function's
symbol table, in table order. -/
def generate_function_prologue_pushes (function : Symbol)
    (function_symbols : List Symbol) : List Instr :=
  ((List.range (find_min NUM_REGISTER_PARAMS function.param_count)).map (fun i =>
    Instr.pushq (REGISTER_PARAMS.getD i ""))) ++
  ((function_symbols.filter (fun s => s.symtype = SymType.SYMBOL_LOCAL_VAR)).map
    (fun _ => Instr.pushq "$0"))

/-- The frame-pointer-relative offset written by the j-th push (0-based)
after `movq %rsp, %rbp`: x86-64 `pushq` decrements `%rsp` by 8 and stores,
so push j stores to `-8*(j+1)(%rbp)`. -/
def push_slot_offset (j : Nat) : Int := -8 * ((j : Int) + 1)

/-! ## Theorems checking the specification against the code -/

/-- C10: every tree-walking pass treats a null child node (the placeholder
left by folding away an `if` without else or a `while` with false condition)
as a no-op: constant folding returns null unchanged, unreachable-code
removal reports it unchanged and non-diverting, name binding returns the
state untouched, and statement and expression code generation emit
nothing. -/
theorem null_node_is_noop_in_every_pass :
    constant_fold_subtree none = none
    ∧ remove_unreachable_code none = (none, false)
    ∧ (∀ st : BindState, bind_names st none = Except.ok (st, none))
    ∧ (∀ current_function : Symbol, generate_statement current_function none = [])
    ∧ (∀ current_function : Symbol, generate_expression current_function none = []) := by
  refine ⟨?_, ?_, ?_, ?_, ?_⟩ <;> intros <;>
    simp [constant_fold_subtree, remove_unreachable_code, bind_names,
      generate_statement, generate_expression]

/-- C8: `constant_fold_if` on an `if` whose condition child is a number
literal replaces the whole node by the then-branch when the condition is
nonzero, by the else-branch when the condition is zero and an else-branch
exists, and by the null placeholder when the condition is zero and there is
no else-branch; the untaken branch is no longer referenced by the result. -/
theorem constant_fold_if_literal_condition (cnd d : NodeData)
    (then_branch else_branch : Option Node) :
    (constant_fold_if (Node.mk .IF_STATEMENT
        [some (Node.mk .NUMBER_LITERAL [] cnd), then_branch] d)
      = if cnd.number_literal = 0 then none else then_branch)
    ∧ (constant_fold_if (Node.mk .IF_STATEMENT
        [some (Node.mk .NUMBER_LITERAL [] cnd), then_branch, else_branch] d)
      = if cnd.number_literal = 0 then else_branch else then_branch) := by
  by_cases hc : cnd.number_literal = 0 <;>
    simp [constant_fold_if, hc, List.getD]

/-- C9: `constant_fold_while` on a `while` whose condition child is a number
literal deletes the entire loop (null placeholder) when the literal is zero,
and leaves the node entirely intact when the literal is nonzero. -/
theorem constant_fold_while_literal_condition (cnd d : NodeData)
    (rest : List (Option Node)) :
    constant_fold_while (Node.mk .WHILE_STATEMENT
        (some (Node.mk .NUMBER_LITERAL [] cnd) :: rest) d)
      = if cnd.number_literal = 0 then none
        else some (Node.mk .WHILE_STATEMENT
          (some (Node.mk .NUMBER_LITERAL [] cnd) :: rest) d) := by
  by_cases hc : cnd.number_literal = 0 <;>
    simp [constant_fold_while, hc, List.getD]

/-- C2 counterexample evidence: constant folding of the all-literal operator
node `4294967296 + 1` produces the literal `1`, not the 64-bit sum
`4294967297`: the folding helpers take their operands through the C type
`int`, truncating `4294967296 = 2^32` to `0`. -/
theorem constant_fold_add_truncates_operands_to_32_bits :
    constant_fold_operator (Node.mk .OPERATOR
        [some (number_literal_node 4294967296), some (number_literal_node 1)]
        { operator := "+" })
      = number_literal_node 1
    ∧ (1 : Int) ≠ 4294967296 + 1 := by
  constructor
  · simp [constant_fold_operator, get_operator_func, operator_to_func_table,
      child_number, number_literal_node, List.getD, List.find?, add, toInt32]
  · decide

/-- C2, salvaged part: for operands that fit in the C type `int` (here:
nonnegative 64-bit values below `2^31`), the folding helpers do compute the
operator's exact integer semantics; shown for `+` on the spec's own example
`2 + 3 * 4 = 14` via the full bottom-up fold. -/
theorem constant_fold_example_two_plus_three_times_four :
    constant_fold_subtree (some (Node.mk .OPERATOR
        [some (number_literal_node 2),
         some (Node.mk .OPERATOR
           [some (number_literal_node 3), some (number_literal_node 4)]
           { operator := "*" })]
        { operator := "+" }))
      = some (number_literal_node 14) := by
  simp [constant_fold_subtree, constant_fold_operator, get_operator_func,
    operator_to_func_table, child_number, number_literal_node, List.getD,
    List.find?, add, multiply, toInt32, List.attach, List.attachWith]

/-- C1 counterexample evidence: for a function with 2 parameters and one
local variable (sequence number 2), the prologue of `generate_function`
pushes `%rdi`, `%rsi` and then the local's zero slot, so the local's slot is
the push with index 2, at `-24(%rbp)`; but `get_stack_offset` computes `-56`
for sequence number 2, because it counts `find_max(param_count, 6) = 6`
callee-pushed parameters where the prologue pushed
`find_min(6, param_count) = 2`. -/
theorem get_stack_offset_disagrees_with_prologue_slot :
    generate_function_prologue_pushes
        { name := "f", symtype := .SYMBOL_FUNCTION, sequence_number := 0, param_count := 2 }
        [{ name := "a", symtype := .SYMBOL_PARAMETER, sequence_number := 0 },
         { name := "b", symtype := .SYMBOL_PARAMETER, sequence_number := 1 },
         { name := "x", symtype := .SYMBOL_LOCAL_VAR, sequence_number := 2 }]
      = [.pushq "%rdi", .pushq "%rsi", .pushq "$0"]
    ∧ push_slot_offset 2 = -24
    ∧ get_stack_offset
        { name := "f", symtype := .SYMBOL_FUNCTION, sequence_number := 0, param_count := 2 } 2
      = -56 := by
  refine ⟨?_, by decide, ?_⟩
  · simp [generate_function_prologue_pushes, find_min, NUM_REGISTER_PARAMS,
      REGISTER_PARAMS, List.range_succ]
  · simp [get_stack_offset, find_max, NUM_REGISTER_PARAMS]

/-- C1, salvaged part: the two computations do agree for parameters held in
callee-pushed slots — for every sequence number below both the parameter
count and the register count, `get_stack_offset` returns exactly the frame
slot of the corresponding prologue push. -/
theorem get_stack_offset_parameter_matches_prologue_slot
    (current_function : Symbol) (sequence_number : Nat)
    (hseq : sequence_number < current_function.param_count)
    (hreg : sequence_number < NUM_REGISTER_PARAMS) :
    get_stack_offset current_function sequence_number
      = push_slot_offset sequence_number := by
  have h5 : ¬ sequence_number > 5 := by
    simp only [NUM_REGISTER_PARAMS] at hreg; omega
  simp only [get_stack_offset, push_slot_offset, if_pos hseq, if_neg h5]
  ring

/-- Witness for `get_stack_offset_parameter_matches_prologue_slot` at
sequence number 1 of a 2-parameter function. -/
theorem get_stack_offset_parameter_matches_prologue_slot_witness :
    get_stack_offset
        { name := "f", symtype := .SYMBOL_FUNCTION, sequence_number := 0, param_count := 2 } 1
      = push_slot_offset 1 :=
  get_stack_offset_parameter_matches_prologue_slot
    { name := "f", symtype := .SYMBOL_FUNCTION, sequence_number := 0, param_count := 2 } 1
    (by decide) (by decide)

/-- C3 counterexample evidence: generating the statement `return f()` (for a
0-parameter function `f`, inside function `g`) emits the `call .f`
instruction twice — once from the return statement's expression code, and a
second time because `generate_statement`'s trailing child loop runs for
*every* node kind, so it descends into the return's expression and re-emits
the `FUNCTION_CALL` child as a statement. -/
theorem function_call_in_return_statement_emitted_twice :
    generate_statement
        { name := "g", symtype := .SYMBOL_FUNCTION, sequence_number := 1, param_count := 0 }
        (some (Node.mk .RETURN_STATEMENT
          [some (Node.mk .FUNCTION_CALL
            [some (Node.mk .IDENTIFIER []
              { identifier := "f",
                symbol := some { name := "f", symtype := .SYMBOL_FUNCTION,
                                 sequence_number := 0, param_count := 0 } }),
             some (Node.mk .LIST [] {})] {})] {}))
      = [.call_function "f", .jmp ".g.epilogue", .call_function "f"] := by
  simp [generate_statement, generate_return_statement, generate_expression,
    generate_function_call, List.attach, List.attachWith, find_min,
    NUM_REGISTER_PARAMS, List.getD]

/-- The truncation of a statement list at its first diverting statement, in
the spec's words: statements before the first diverting one are kept (each
recursively cleaned), the first diverting statement itself is kept
(cleaned), and all following sibling statements are discarded. -/
def trunc_at_first_diverting (l : List (Option Node)) : List (Option Node) :=
  ((l.takeWhile (fun s => !(remove_unreachable_code s).2)).map
    (fun s => (remove_unreachable_code s).1)) ++
  (match l.find? (fun s => (remove_unreachable_code s).2) with
   | some s => [(remove_unreachable_code s).1]
   | none => [])

/-- The in-order scan of a block's statement list equals the spec-side
truncation, and its flag is "some statement in the list diverts". -/
theorem remove_unreachable_code_list_eq_trunc (l : List (Option Node)) :
    remove_unreachable_code_list l
      = (trunc_at_first_diverting l, l.any (fun s => (remove_unreachable_code s).2)) := by
  induction l with
  | nil => simp [remove_unreachable_code_list, trunc_at_first_diverting]
  | cons s rest ih =>
    by_cases hs : (remove_unreachable_code s).2
    · simp [remove_unreachable_code_list, trunc_at_first_diverting, hs, List.find?]
    · simp [remove_unreachable_code_list, trunc_at_first_diverting, hs, List.find?, ih,
        trunc_at_first_diverting]

/-- C5: the unreachable-code pass reports a statement diverting exactly per
the claim's case table — `return`/`break` always (children untouched), `if`
with only a then-branch never, `if` with both branches iff both divert,
`while` never — and on a block it scans the statement list (the block's last
child) in order, truncates it at the first diverting statement discarding
all following sibling statements, and reports the block diverting iff such
a statement exists. -/
theorem remove_unreachable_code_case_behavior :
    (∀ cs d, remove_unreachable_code (some (Node.mk .RETURN_STATEMENT cs d))
      = (some (Node.mk .RETURN_STATEMENT cs d), true))
    ∧ (∀ cs d, remove_unreachable_code (some (Node.mk .BREAK_STATEMENT cs d))
      = (some (Node.mk .BREAK_STATEMENT cs d), true))
    ∧ (∀ c0 c1 d, remove_unreachable_code (some (Node.mk .IF_STATEMENT [c0, c1] d))
      = (some (Node.mk .IF_STATEMENT [c0, (remove_unreachable_code c1).1] d), false))
    ∧ (∀ c0 c1 c2 rest d,
        remove_unreachable_code (some (Node.mk .IF_STATEMENT (c0 :: c1 :: c2 :: rest) d))
      = (some (Node.mk .IF_STATEMENT
          (c0 :: (remove_unreachable_code c1).1 :: (remove_unreachable_code c2).1 :: rest) d),
         (remove_unreachable_code c1).2 && (remove_unreachable_code c2).2))
    ∧ (∀ c0 c1 rest d,
        remove_unreachable_code (some (Node.mk .WHILE_STATEMENT (c0 :: c1 :: rest) d))
      = (some (Node.mk .WHILE_STATEMENT (c0 :: (remove_unreachable_code c1).1 :: rest) d),
         false))
    ∧ (∀ cs d lty stmts ld, cs.getLast? = some (some (Node.mk lty stmts ld)) →
        remove_unreachable_code (some (Node.mk .BLOCK cs d))
      = (some (Node.mk .BLOCK
          (cs.dropLast ++ [some (Node.mk lty (trunc_at_first_diverting stmts) ld)]) d),
         stmts.any (fun s => (remove_unreachable_code s).2))) := by
  refine ⟨?_, ?_, ?_, ?_, ?_, ?_⟩
  · intro cs d; simp [remove_unreachable_code]
  · intro cs d; simp [remove_unreachable_code]
  · intro c0 c1 d; simp [remove_unreachable_code]
  · intro c0 c1 c2 rest d; simp [remove_unreachable_code]
  · intro c0 c1 rest d
    match c1 with
    | _ => simp [remove_unreachable_code]
  · intro cs d lty stmts ld hlast
    simp only [remove_unreachable_code]
    split
    next lty2 stmts2 ld2 heq =>
      rw [hlast] at heq
      simp only [Option.some.injEq, Node.mk.injEq] at heq
      obtain ⟨h1, h2, h3⟩ := heq
      subst h1; subst h2; subst h3
      simp [remove_unreachable_code_list_eq_trunc]
    next hcon =>
      exact (hcon lty stmts ld hlast).elim

/-- Witness for `remove_unreachable_code_case_behavior`: its block case
applied to the spec's example `{ return 1; print 2; }`, whose statement list
truncates to just the (cleaned) return and which is reported diverting. -/
theorem remove_unreachable_code_case_behavior_witness :
    remove_unreachable_code (some (Node.mk .BLOCK
        [some (Node.mk .LIST
          [some (Node.mk .RETURN_STATEMENT [some (number_literal_node 1)] {}),
           some (Node.mk .PRINT_STATEMENT
             [some (Node.mk .LIST [some (number_literal_node 2)] {})] {})] {})] {}))
      = (some (Node.mk .BLOCK
          ([].dropLast ++ [some (Node.mk .LIST
            (trunc_at_first_diverting
              [some (Node.mk .RETURN_STATEMENT [some (number_literal_node 1)] {}),
               some (Node.mk .PRINT_STATEMENT
                 [some (Node.mk .LIST [some (number_literal_node 2)] {})] {})]) {})]) {}),
         ([some (Node.mk .RETURN_STATEMENT [some (number_literal_node 1)] {}),
           some (Node.mk .PRINT_STATEMENT
             [some (Node.mk .LIST [some (number_literal_node 2)] {})] {})].any
           (fun s => (remove_unreachable_code s).2))) :=
  remove_unreachable_code_case_behavior.2.2.2.2.2
    [some (Node.mk .LIST
      [some (Node.mk .RETURN_STATEMENT [some (number_literal_node 1)] {}),
       some (Node.mk .PRINT_STATEMENT
         [some (Node.mk .LIST [some (number_literal_node 2)] {})] {})] {})] {}
    .LIST
    [some (Node.mk .RETURN_STATEMENT [some (number_literal_node 1)] {}),
     some (Node.mk .PRINT_STATEMENT
       [some (Node.mk .LIST [some (number_literal_node 2)] {})] {})] {}
    rfl

/-- C4: after the unreachable-code pass, each `FUNCTION` child of the root
whose (cleaned) body is not guaranteed to divert has its body replaced by a
new block `{ cleaned body ; return 0 }`; a body already guaranteed to divert
is kept (cleaned) without wrapping. -/
theorem unreachable_pass_wraps_non_returning_bodies (root : Node) (i : Nat)
    (c0 c1 body : Option Node) (rest : List (Option Node)) (d : NodeData)
    (hchild : root.children[i]? = some (some (Node.mk .FUNCTION (c0 :: c1 :: body :: rest) d))) :
    (remove_unreachable_code_syntax_tree root).children[i]?
      = some (some (Node.mk .FUNCTION
          (c0 :: c1 ::
            (if (remove_unreachable_code body).2 then
              (remove_unreachable_code body).1
            else
              some (Node.mk .BLOCK
                [some (Node.mk .LIST
                  [(remove_unreachable_code body).1, some return_zero_node] {})] {}))
            :: rest) d)) := by
  by_cases hdiv : (remove_unreachable_code body).2 <;>
    simp [remove_unreachable_code_syntax_tree, List.getElem?_map, hchild, hdiv]

/-- Witness for `unreachable_pass_wraps_non_returning_bodies`: a root with a
single function whose body is one `print` statement (not diverting), so the
pass wraps it with an appended `return 0`. -/
theorem unreachable_pass_wraps_non_returning_bodies_witness :
    (remove_unreachable_code_syntax_tree (Node.mk .LIST
        [some (Node.mk .FUNCTION
          [some (Node.mk .IDENTIFIER [] { identifier := "f" }),
           some (Node.mk .LIST [] {}),
           some (Node.mk .PRINT_STATEMENT
             [some (Node.mk .LIST [some (number_literal_node 2)] {})] {})] {})] {})).children[0]?
      = some (some (Node.mk .FUNCTION
          [some (Node.mk .IDENTIFIER [] { identifier := "f" }),
           some (Node.mk .LIST [] {}),
           (if (remove_unreachable_code (some (Node.mk .PRINT_STATEMENT
                [some (Node.mk .LIST [some (number_literal_node 2)] {})] {}))).2 then
             (remove_unreachable_code (some (Node.mk .PRINT_STATEMENT
                [some (Node.mk .LIST [some (number_literal_node 2)] {})] {}))).1
           else
             some (Node.mk .BLOCK
               [some (Node.mk .LIST
                 [(remove_unreachable_code (some (Node.mk .PRINT_STATEMENT
                    [some (Node.mk .LIST [some (number_literal_node 2)] {})] {}))).1,
                  some return_zero_node] {})] {}))] {})) :=
  unreachable_pass_wraps_non_returning_bodies
    (Node.mk .LIST
      [some (Node.mk .FUNCTION
        [some (Node.mk .IDENTIFIER [] { identifier := "f" }),
         some (Node.mk .LIST [] {}),
         some (Node.mk .PRINT_STATEMENT
           [some (Node.mk .LIST [some (number_literal_node 2)] {})] {})] {})] {})
    0
    (some (Node.mk .IDENTIFIER [] { identifier := "f" }))
    (some (Node.mk .LIST [] {}))
    (some (Node.mk .PRINT_STATEMENT
      [some (Node.mk .LIST [some (number_literal_node 2)] {})] {}))
    [] {} rfl

/-! ### Sequence-number invariants of the binder (towards C6) -/

/-- The relation between a symbol table's symbol list before and after a
piece of binder code runs: the old list is a prefix, everything appended is
a local variable, and appending preserved "sequence numbers are exactly
`0, 1, ..., n-1` in table order". -/
def locals_extension (old new : List Symbol) : Prop :=
  (∃ ts, new = old ++ ts ∧ ∀ s ∈ ts, s.symtype = SymType.SYMBOL_LOCAL_VAR)
  ∧ (old.map (·.sequence_number) = List.range old.length →
     new.map (·.sequence_number) = List.range new.length)

theorem locals_extension_refl (l : List Symbol) : locals_extension l l :=
  ⟨⟨[], by simp, by simp⟩, fun h => h⟩

theorem locals_extension_trans {a b c : List Symbol}
    (hab : locals_extension a b) (hbc : locals_extension b c) :
    locals_extension a c := by
  obtain ⟨⟨ts1, rfl, h1⟩, m1⟩ := hab
  obtain ⟨⟨ts2, rfl, h2⟩, m2⟩ := hbc
  refine ⟨⟨ts1 ++ ts2, by simp, ?_⟩, fun h => m2 (m1 h)⟩
  intro s hs
  rcases List.mem_append.mp hs with h | h
  · exact h1 s h
  · exact h2 s h

/-- `symbol_table_insert` appends exactly one symbol, whose sequence number
is the previous table length and whose kind is the requested one, and leaves
the chain's outer levels unchanged. -/
theorem symbol_table_insert_ok {t : SymbolTable} {name : String} {ty : SymType}
    {pc : Nat} {t' : SymbolTable} {s : Symbol}
    (h : symbol_table_insert t name ty pc = some (t', s)) :
    t'.symbols = t.symbols ++ [s]
    ∧ s.symtype = ty
    ∧ s.sequence_number = t.symbols.length
    ∧ s.name = name
    ∧ ∃ level backup, t.hashmap = level :: backup
        ∧ t'.hashmap = ((name, s) :: level) :: backup := by
  unfold symbol_table_insert at h
  match hm : t.hashmap with
  | [] => rw [hm] at h; simp at h
  | level :: backup =>
    rw [hm] at h
    by_cases hc : level.any (fun entry => entry.1 = name)
    · simp [hc] at h
    · simp only [hc, Bool.false_eq_true, if_false, Option.some.injEq, Prod.mk.injEq] at h
      obtain ⟨ht', hs⟩ := h
      subst hs
      refine ⟨by rw [← ht'], rfl, rfl, rfl, level, backup, rfl, by rw [← ht']⟩

/-- Appending a freshly numbered symbol preserves the `0..n-1`
sequence-number shape. -/
theorem map_seq_append_fresh {l : List Symbol} {s : Symbol}
    (hs : s.sequence_number = l.length)
    (h : l.map (·.sequence_number) = List.range l.length) :
    (l ++ [s]).map (·.sequence_number) = List.range (l ++ [s]).length := by
  simp [List.range_succ, h, hs]

/-- A successful local-variable `create_symbol` is a `locals_extension`. -/
theorem create_symbol_local_extension {name : String} {pc : Nat}
    {t t' : SymbolTable} {s : Symbol}
    (h : create_symbol name .SYMBOL_LOCAL_VAR pc t = some (t', s)) :
    locals_extension t.symbols t'.symbols := by
  obtain ⟨happ, hty, hseq, -⟩ := symbol_table_insert_ok h
  exact ⟨⟨[s], happ, by simpa [hty]⟩,
    fun hr => by rw [happ]; exact map_seq_append_fresh hseq hr⟩

/-- `declare_identifiers` only appends local-variable symbols with fresh
sequence numbers. -/
theorem declare_identifiers_extension :
    ∀ (l : List (Option Node)) (st st' : BindState),
      declare_identifiers st l = .ok st' →
      locals_extension st.local_symbols.symbols st'.local_symbols.symbols
  | [], st, st', h => by
    simp only [declare_identifiers, Except.ok.injEq] at h
    rw [← h]
    exact locals_extension_refl _
  | none :: rest, st, st', h => by
    simp only [declare_identifiers] at h
    exact declare_identifiers_extension rest st st' h
  | some n :: rest, st, st', h => by
    simp only [declare_identifiers] at h
    match hc : create_symbol n.data.identifier .SYMBOL_LOCAL_VAR 0 st.local_symbols with
    | none => rw [hc] at h; simp at h
    | some (table', s) =>
      rw [hc] at h
      exact locals_extension_trans (create_symbol_local_extension hc)
        (declare_identifiers_extension rest _ st' h)

/-- `declare_groups` only appends local-variable symbols with fresh sequence
numbers. -/
theorem declare_groups_extension :
    ∀ (l : List (Option Node)) (st st' : BindState),
      declare_groups st l = .ok st' →
      locals_extension st.local_symbols.symbols st'.local_symbols.symbols
  | [], st, st', h => by
    simp only [declare_groups, Except.ok.injEq] at h
    rw [← h]
    exact locals_extension_refl _
  | none :: rest, st, st', h => by
    simp only [declare_groups] at h
    exact declare_groups_extension rest st st' h
  | some n :: rest, st, st', h => by
    simp only [declare_groups] at h
    match hd : declare_identifiers st n.children with
    | .error e => rw [hd] at h; simp at h
    | .ok st1 =>
      rw [hd] at h
      exact locals_extension_trans (declare_identifiers_extension _ _ _ hd)
        (declare_groups_extension rest _ st' h)

/-- `declare_block_locals` only appends local-variable symbols with fresh
sequence numbers. -/
theorem declare_block_locals_extension {c : Option Node} {st st' : BindState}
    (h : declare_block_locals st c = .ok st') :
    locals_extension st.local_symbols.symbols st'.local_symbols.symbols := by
  match c with
  | none =>
    simp only [declare_block_locals, Except.ok.injEq] at h
    rw [← h]
    exact locals_extension_refl _
  | some n =>
    exact declare_groups_extension n.children st st' h

/-- Unfolding of `bind_names` on a `BLOCK` node that does not have exactly
two children. -/
theorem bind_names_block_other (st : BindState) (cs : List (Option Node))
    (d : NodeData) (hne : ∀ c0 c1, cs ≠ [c0, c1]) :
    bind_names st (some (Node.mk .BLOCK cs d))
      = (match bind_names_list
            { st with local_symbols :=
                { st.local_symbols with hashmap := [] :: st.local_symbols.hashmap } } cs with
         | .error e => .error e
         | .ok (st2, cs') =>
           .ok ({ st2 with local_symbols :=
                   { st2.local_symbols with hashmap := st.local_symbols.hashmap } },
                some (Node.mk .BLOCK cs' d))) := by
  match cs with
  | [] => simp [bind_names]
  | [c0] => simp [bind_names]
  | [c0, c1] => exact (hne c0 c1 rfl).elim
  | c0 :: c1 :: c2 :: cs3 => simp [bind_names]

/-- Unfolding of `bind_names` on a node whose type is none of `BLOCK`,
`IDENTIFIER`, `STRING_LITERAL` (the default child-walking case). -/
theorem bind_names_default (st : BindState) (ty : NodeType)
    (cs : List (Option Node)) (d : NodeData) (h1 : ty ≠ .BLOCK)
    (h2 : ty ≠ .IDENTIFIER) (h3 : ty ≠ .STRING_LITERAL) :
    bind_names st (some (Node.mk ty cs d))
      = (match bind_names_list st cs with
         | .error e => .error e
         | .ok (st1, cs') => .ok (st1, some (Node.mk ty cs' d))) := by
  cases ty <;> first
  | exact (h1 rfl).elim
  | exact (h2 rfl).elim
  | exact (h3 rfl).elim
  | simp [bind_names]

/-- `bind_names` only appends local-variable symbols with fresh sequence
numbers to the function's symbol table (scope pushes and pops change only
the hashmap chain, never the symbol list). -/
theorem bind_names_locals_extension :
    ∀ (st : BindState) (n : Option Node), ∀ (st' : BindState) (n' : Option Node),
      bind_names st n = .ok (st', n') →
      locals_extension st.local_symbols.symbols st'.local_symbols.symbols := by
  refine Vslc.bind_names.induct _
    (fun st l => ∀ st' l', bind_names_list st l = .ok (st', l') →
      locals_extension st.local_symbols.symbols st'.local_symbols.symbols)
    ?_ ?_ ?_ ?_ ?_ ?_ ?_ ?_ ?_ ?_ ?_ ?_ ?_ ?_ ?_
  · -- none
    intro st st' n' h
    simp only [bind_names, Except.ok.injEq, Prod.mk.injEq] at h
    rw [← h.1]
    exact locals_extension_refl _
  · -- BLOCK [c0, c1], declarations fail
    intro st c0 c1 d pushed e hdecl st' n' h
    simp only [bind_names, hdecl] at h
    exact Except.noConfusion h
  · -- BLOCK [c0, c1], declarations ok, body fails
    intro st c0 c1 d pushed st1 hdecl e hbind ih st' n' h
    simp only [bind_names, hdecl, hbind] at h
    exact Except.noConfusion h
  · -- BLOCK [c0, c1], declarations ok, body ok
    intro st c0 c1 d pushed st1 hdecl st2 c1' hbind ih st' n' h
    simp only [bind_names, hdecl, hbind, Except.ok.injEq, Prod.mk.injEq] at h
    have hd := declare_block_locals_extension hdecl
    have hb := ih st2 c1' hbind
    rw [← h.1]
    exact locals_extension_trans hd hb
  · -- BLOCK other, children fail
    intro st cs d hne pushed e hlist ih st' n' h
    rw [bind_names_block_other st cs d (fun c0 c1 hcs => hne c0 c1 hcs)] at h
    rw [hlist] at h
    exact Except.noConfusion h
  · -- BLOCK other, children ok
    intro st cs d hne pushed st2 cs' hlist ih st' n' h
    have hl := ih st2 cs' hlist
    rw [bind_names_block_other st cs d (fun c0 c1 hcs => hne c0 c1 hcs)] at h
    rw [hlist] at h
    simp only [Except.ok.injEq, Prod.mk.injEq] at h
    rw [← h.1]
    exact hl
  · -- IDENTIFIER, unresolved
    intro st cs d hlookup st' n' h
    simp only [bind_names, hlookup] at h
    exact Except.noConfusion h
  · -- IDENTIFIER, resolved
    intro st cs d s hlookup st' n' h
    simp only [bind_names, hlookup, Except.ok.injEq, Prod.mk.injEq] at h
    rw [← h.1]
    exact locals_extension_refl _
  · -- STRING_LITERAL
    intro st cs d st' n' h
    simp only [bind_names, add_string, Except.ok.injEq, Prod.mk.injEq] at h
    rw [← h.1]
    exact locals_extension_refl _
  · -- default, children fail
    intro st ty cs d hne1 hne2 hne3 hne4 e hlist ih st' n' h
    rw [bind_names_default st ty cs d (fun ht => hne2 ht) (fun ht => hne3 ht)
      (fun ht => hne4 ht)] at h
    rw [hlist] at h
    exact Except.noConfusion h
  · -- default, children ok
    intro st ty cs d hne1 hne2 hne3 hne4 st2 cs' hlist ih st' n' h
    have hl := ih st2 cs' hlist
    rw [bind_names_default st ty cs d (fun ht => hne2 ht) (fun ht => hne3 ht)
      (fun ht => hne4 ht)] at h
    rw [hlist] at h
    simp only [Except.ok.injEq, Prod.mk.injEq] at h
    rw [← h.1]
    exact hl
  · -- list: nil
    intro st st' l' h
    simp only [bind_names_list, Except.ok.injEq, Prod.mk.injEq] at h
    rw [← h.1]
    exact locals_extension_refl _
  · -- list: head fails
    intro st c rest e hbind ih st' l' h
    simp only [bind_names_list, hbind] at h
    exact Except.noConfusion h
  · -- list: head ok, tail fails
    intro st c rest st2 c' hbind e hrest ih1 ih2 st' l' h
    simp only [bind_names_list, hbind, hrest] at h
    exact Except.noConfusion h
  · -- list: head ok, tail ok
    intro st c rest st2 c' hbind st3 rest' hrest ih1 ih2 st' l' h
    simp only [bind_names_list, hbind, hrest, Except.ok.injEq, Prod.mk.injEq] at h
    rw [← h.1]
    exact locals_extension_trans (ih1 st2 c' hbind) (ih2 st3 rest' hrest)

/-- `create_parameter_symbols` appends one `SYMBOL_PARAMETER` per parameter
node, carrying the parameter names left to right, with fresh sequence
numbers. -/
theorem create_parameter_symbols_spec :
    ∀ (l : List (Option Node)) (t t' : SymbolTable),
      create_parameter_symbols t l = .ok t' →
      ∃ ps, t'.symbols = t.symbols ++ ps
        ∧ (∀ s ∈ ps, s.symtype = SymType.SYMBOL_PARAMETER)
        ∧ ps.map (·.name)
            = l.map (fun p => match p with | some n => n.data.identifier | none => "")
        ∧ (t.symbols.map (·.sequence_number) = List.range t.symbols.length →
           t'.symbols.map (·.sequence_number) = List.range t'.symbols.length)
  | [], t, t', h => by
    simp only [create_parameter_symbols, Except.ok.injEq] at h
    exact ⟨[], by simp [← h], by simp, by simp, fun hr => by rw [← h]; exact hr⟩
  | none :: rest, t, t', h => by
    simp only [create_parameter_symbols] at h
    exact Except.noConfusion h
  | some p :: rest, t, t', h => by
    simp only [create_parameter_symbols] at h
    by_cases hty : p.ty ≠ NodeType.IDENTIFIER
    · rw [if_pos hty] at h
      exact Except.noConfusion h
    · rw [if_neg hty] at h
      match hc : create_symbol p.data.identifier .SYMBOL_PARAMETER 0 t with
      | none => rw [hc] at h; exact Except.noConfusion h
      | some (t1, s) =>
        rw [hc] at h
        obtain ⟨happ, hsty, hseq, hname, -⟩ := symbol_table_insert_ok hc
        obtain ⟨ps1, happ1, hall1, hnames1, hrange1⟩ :=
          create_parameter_symbols_spec rest t1 t' h
        refine ⟨s :: ps1, ?_, ?_, ?_, ?_⟩
        · rw [happ1, happ]; simp
        · intro x hx
          rcases List.mem_cons.mp hx with h | h
          · rw [h]; exact hsty
          · exact hall1 x h
        · simp [hnames1, hname]
        · intro hr
          exact hrange1 (by rw [happ]; exact map_seq_append_fresh hseq hr)

/-- The per-function table property behind C6: sequence numbers are exactly
the table positions (hence strictly increasing in declaration order and
never reused, even for locals of sibling blocks), and the table is the
function's parameters — left to right, by name — followed only by local
variables. -/
def table_sequence_invariant (fb : FunctionBinding) : Prop :=
  (∀ (i : Nat) (hi : i < fb.table.symbols.length),
    (fb.table.symbols[i]).sequence_number = i)
  ∧ ((fb.table.symbols.take fb.param_names.length).map (·.name) = fb.param_names)
  ∧ (∀ s ∈ fb.table.symbols.take fb.param_names.length,
      s.symtype = SymType.SYMBOL_PARAMETER)
  ∧ (∀ s ∈ fb.table.symbols.drop fb.param_names.length,
      s.symtype = SymType.SYMBOL_LOCAL_VAR)

/-- If a symbol list's sequence numbers read `0, 1, ..., n-1`, then the
symbol at position `i` has sequence number `i`. -/
theorem seq_eq_of_map_range {l : List Symbol}
    (h : l.map (·.sequence_number) = List.range l.length)
    (i : Nat) (hi : i < l.length) : (l[i]).sequence_number = i := by
  have h2 : (l.map (·.sequence_number))[i]? = (List.range l.length)[i]? := by rw [h]
  simpa [List.getElem?_map, List.getElem?_range, hi, List.getElem?_eq_getElem] using h2

/-- A successful `bind_function` produces a table satisfying
`table_sequence_invariant`. -/
theorem bind_function_table_spec {gh : List ScopeLevel} {sl : List String}
    {name : String} {fnode : Node} {fb : FunctionBinding} {sl' : List String}
    (h : bind_function gh sl name fnode = .ok (fb, sl')) :
    table_sequence_invariant fb := by
  simp only [bind_function] at h
  by_cases hlen : fnode.children.length < 3
  · rw [if_pos hlen] at h
    exact Except.noConfusion h
  rw [if_neg hlen] at h
  match hcp : create_parameter_symbols
      { symbols := [], hashmap := [[]] ++ gh }
      (match fnode.children.getD 1 none with
       | some parameter_list_node => parameter_list_node.children
       | none => []) with
  | .error e => rw [hcp] at h; exact Except.noConfusion h
  | .ok table1 =>
    rw [hcp] at h
    dsimp only at h
    match hb : bind_names { local_symbols := table1, string_list := sl }
        (fnode.children.getD 2 none) with
    | .error e =>
      rw [hb] at h
      exact Except.noConfusion h
    | .ok (st2, body') =>
      rw [hb] at h
      dsimp only at h
      simp only [Except.ok.injEq, Prod.mk.injEq] at h
      obtain ⟨hfb, -⟩ := h
      subst hfb
      obtain ⟨ps, hps, hpsty, hpsnames, hpsrange⟩ :=
        create_parameter_symbols_spec _ _ _ hcp
      obtain ⟨⟨ts, hts, htsty⟩, hrange⟩ :=
        bind_names_locals_extension { local_symbols := table1, string_list := sl }
          (fnode.children.getD 2 none) st2 body' hb
      simp only at hts hrange
      have htable1 : table1.symbols = ps := by simpa using hps
      have hrange1 : table1.symbols.map (·.sequence_number)
          = List.range table1.symbols.length := hpsrange (by simp)
      have hrange2 : st2.local_symbols.symbols.map (·.sequence_number)
          = List.range st2.local_symbols.symbols.length := hrange hrange1
      have hsyms : st2.local_symbols.symbols = ps ++ ts := by
        rw [hts, htable1]
      have hplen : ps.length
          = (List.map (fun p => match p with | some n => n.data.identifier | none => "")
              (match fnode.children.getD 1 none with
               | some parameter_list_node => parameter_list_node.children
               | none => [])).length := by
        rw [← hpsnames]
        simp
      refine ⟨?_, ?_, ?_, ?_⟩
      · intro i hi
        exact seq_eq_of_map_range hrange2 i hi
      · show (st2.local_symbols.symbols.take _).map (·.name) = _
        rw [hsyms, ← hplen, List.take_left]
        exact hpsnames
      · intro s hs
        apply hpsty
        rw [hsyms, ← hplen, List.take_left] at hs
        exact hs
      · intro s hs
        apply htsty
        rw [hsyms, ← hplen, List.drop_left] at hs
        exact hs

/-- Every binding produced by `create_tables`'s per-function loop satisfies
`table_sequence_invariant`. -/
theorem create_tables_functions_spec :
    ∀ (syms : List Symbol) (gh : List ScopeLevel) (fn : List (String × Node))
      (sl : List String) (bindings : List FunctionBinding) (sl' : List String),
      create_tables_functions gh fn sl syms = .ok (bindings, sl') →
      ∀ fb ∈ bindings, table_sequence_invariant fb
  | [], gh, fn, sl, bindings, sl', h => by
    simp only [create_tables_functions, Except.ok.injEq, Prod.mk.injEq] at h
    obtain ⟨hb, -⟩ := h
    rw [← hb]
    intro fb hfb
    exact absurd hfb (List.not_mem_nil fb)
  | symbol :: rest, gh, fn, sl, bindings, sl', h => by
    simp only [create_tables_functions] at h
    by_cases hfun : symbol.symtype = SymType.SYMBOL_FUNCTION
    · rw [if_pos hfun] at h
      match hfind : fn.find? (fun e => e.1 = symbol.name) with
      | none =>
        rw [hfind] at h
        exact create_tables_functions_spec rest gh fn sl bindings sl' h
      | some (nm, fnode) =>
        rw [hfind] at h
        dsimp only at h
        match hbf : bind_function gh sl symbol.name fnode with
        | .error e =>
          rw [hbf] at h
          exact Except.noConfusion h
        | .ok (binding, sl1) =>
          rw [hbf] at h
          dsimp only at h
          match hrec : create_tables_functions gh fn sl1 rest with
          | .error e =>
            rw [hrec] at h
            exact Except.noConfusion h
          | .ok (bindings2, sl2) =>
            rw [hrec] at h
            dsimp only at h
            simp only [Except.ok.injEq, Prod.mk.injEq] at h
            obtain ⟨hb, -⟩ := h
            rw [← hb]
            intro fb hfb
            rcases List.mem_cons.mp hfb with heq | hmem
            · rw [heq]
              exact bind_function_table_spec hbf
            · exact create_tables_functions_spec rest gh fn sl1 bindings2 sl2 hrec fb hmem
    · rw [if_neg hfun] at h
      exact create_tables_functions_spec rest gh fn sl bindings sl' h

/-- C6: for every symbol table built for a function by `create_tables`, the
sequence number of the symbol at table position `i` is exactly `i` (so
sequence numbers are strictly increasing in declaration order and never
reused within the function, even for locals declared in sibling blocks), and
the table consists of the function's parameters — left to right, by name —
followed only by local variables. -/
theorem create_tables_function_tables_invariant (root : Node)
    (res : CreateTablesResult) (h : create_tables root = .ok res) :
    ∀ fb ∈ res.function_bindings, table_sequence_invariant fb := by
  simp only [create_tables] at h
  match hg : find_globals root with
  | .error e =>
    rw [hg] at h
    exact Except.noConfusion h
  | .ok (global_symbols, function_nodes) =>
    rw [hg] at h
    dsimp only at h
    match hc : create_tables_functions global_symbols.hashmap function_nodes []
        global_symbols.symbols with
    | .error e =>
      rw [hc] at h
      exact Except.noConfusion h
    | .ok (bindings, string_list) =>
      rw [hc] at h
      dsimp only at h
      simp only [Except.ok.injEq] at h
      rw [← h]
      exact create_tables_functions_spec _ _ _ _ _ _ hc

/-- Witness for `create_tables_function_tables_invariant`: the program
`func f(a) { }` binds to a table holding the parameter `a` with sequence
number 0 and nothing else. -/
theorem create_tables_function_tables_invariant_witness :
    table_sequence_invariant
      { name := "f", param_names := ["a"],
        table := { symbols := [{ name := "a", symtype := .SYMBOL_PARAMETER, sequence_number := 0 }],
                   hashmap := [[("a", { name := "a", symtype := .SYMBOL_PARAMETER, sequence_number := 0 })],
                               [("f", { name := "f", symtype := .SYMBOL_FUNCTION, sequence_number := 0, param_count := 1 })]] },
        body := some (Node.mk .BLOCK [some (Node.mk .LIST [] {})] {}) } :=
  create_tables_function_tables_invariant
    (Node.mk .LIST
      [some (Node.mk .FUNCTION
        [some (Node.mk .IDENTIFIER [] { identifier := "f" }),
         some (Node.mk .LIST [some (Node.mk .IDENTIFIER [] { identifier := "a" })] {}),
         some (Node.mk .BLOCK [some (Node.mk .LIST [] {})] {})] {})] {})
    { global_symbols :=
        { symbols := [{ name := "f", symtype := .SYMBOL_FUNCTION, sequence_number := 0, param_count := 1 }],
          hashmap := [[("f", { name := "f", symtype := .SYMBOL_FUNCTION, sequence_number := 0, param_count := 1 })]] },
      function_bindings :=
        [{ name := "f", param_names := ["a"],
           table := { symbols := [{ name := "a", symtype := .SYMBOL_PARAMETER, sequence_number := 0 }],
                      hashmap := [[("a", { name := "a", symtype := .SYMBOL_PARAMETER, sequence_number := 0 })],
                                  [("f", { name := "f", symtype := .SYMBOL_FUNCTION, sequence_number := 0, param_count := 1 })]] },
           body := some (Node.mk .BLOCK [some (Node.mk .LIST [] {})] {}) }],
      string_list := [] }
    (by
      simp [create_tables, find_globals, find_globals_children, func_param_count_of_node,
        create_symbol, symbol_table_insert, symbol_table_init, create_tables_functions,
        bind_function, create_parameter_symbols, bind_names, bind_names_list,
        List.find?, add_string])
    _ (by simp)

/-- C7: duplicate declaration in one scope is a fatal collision, while
shadowing an enclosing scope's name is not.  Part 1: `create_symbol` rejects
a name already present in the current (innermost) hashmap level.  Part 2:
binding a block that declares the same name twice in its declaration list is
a fatal binding error, whatever the surrounding state.  Part 3: binding a
block that declares a name already visible in an enclosing scope succeeds,
appends one fresh local symbol, and binds the identifier use inside the
block to that inner symbol — not to the enclosing one. -/
theorem duplicate_collides_shadowing_resolves_inner :
    (∀ (t : SymbolTable) (x : String) (ty : SymType) (pc : Nat)
       (level : ScopeLevel) (backup : List ScopeLevel),
       t.hashmap = level :: backup →
       level.any (fun entry => entry.1 = x) = true →
       create_symbol x ty pc t = none)
    ∧ (∀ (st : BindState) (x : String) (stmts : Option Node),
       bind_names st (some (Node.mk .BLOCK
         [some (Node.mk .LIST
           [some (Node.mk .LIST
             [some (Node.mk .IDENTIFIER [] { identifier := x }),
              some (Node.mk .IDENTIFIER [] { identifier := x })] {})] {}),
          stmts] {}))
         = .error ())
    ∧ (∀ (st : BindState) (x : String) (s_out : Symbol),
       symbol_hashmap_lookup st.local_symbols.hashmap x = some s_out →
       bind_names st (some (Node.mk .BLOCK
         [some (Node.mk .LIST
           [some (Node.mk .LIST
             [some (Node.mk .IDENTIFIER [] { identifier := x })] {})] {}),
          some (Node.mk .LIST
            [some (Node.mk .IDENTIFIER [] { identifier := x })] {})] {}))
         = .ok ({ local_symbols :=
                    { symbols := st.local_symbols.symbols ++
                        [{ name := x, symtype := .SYMBOL_LOCAL_VAR,
                           sequence_number := st.local_symbols.symbols.length }],
                      hashmap := st.local_symbols.hashmap },
                  string_list := st.string_list },
                some (Node.mk .BLOCK
                  [some (Node.mk .LIST
                    [some (Node.mk .LIST
                      [some (Node.mk .IDENTIFIER [] { identifier := x })] {})] {}),
                   some (Node.mk .LIST
                     [some (Node.mk .IDENTIFIER []
                       { identifier := x,
                         symbol := some
                           { name := x, symtype := .SYMBOL_LOCAL_VAR,
                             sequence_number := st.local_symbols.symbols.length } })] {})] {}))) := by
  refine ⟨?_, ?_, ?_⟩
  · intro t x ty pc level backup hmap hdup
    simp [create_symbol, symbol_table_insert, hmap, hdup]
  · intro st x stmts
    simp [bind_names, declare_block_locals, declare_groups, declare_identifiers,
      create_symbol, symbol_table_insert, bind_names_list]
  · intro st x s_out hout
    simp [bind_names, declare_block_locals, declare_groups, declare_identifiers,
      create_symbol, symbol_table_insert, bind_names_list,
      symbol_hashmap_lookup, List.find?]

/-- Witness for `duplicate_collides_shadowing_resolves_inner`, at a state
whose chain holds a global `x`: inserting `x` again in the same level
collides; a block declaring `x` twice dies; a block shadowing the global `x`
binds its identifier use to the fresh inner local symbol. -/
theorem duplicate_collides_shadowing_resolves_inner_witness :
    create_symbol "x" .SYMBOL_LOCAL_VAR 0
        { symbols := [{ name := "x", symtype := .SYMBOL_GLOBAL_VAR, sequence_number := 0 }],
          hashmap := [[("x", { name := "x", symtype := .SYMBOL_GLOBAL_VAR, sequence_number := 0 })]] }
      = none
    ∧ bind_names
        { local_symbols :=
            { symbols := [{ name := "x", symtype := .SYMBOL_GLOBAL_VAR, sequence_number := 0 }],
              hashmap := [[("x", { name := "x", symtype := .SYMBOL_GLOBAL_VAR, sequence_number := 0 })]] },
          string_list := [] }
        (some (Node.mk .BLOCK
          [some (Node.mk .LIST
            [some (Node.mk .LIST
              [some (Node.mk .IDENTIFIER [] { identifier := "x" }),
               some (Node.mk .IDENTIFIER [] { identifier := "x" })] {})] {}),
           none] {}))
      = .error ()
    ∧ bind_names
        { local_symbols :=
            { symbols := [{ name := "x", symtype := .SYMBOL_GLOBAL_VAR, sequence_number := 0 }],
              hashmap := [[("x", { name := "x", symtype := .SYMBOL_GLOBAL_VAR, sequence_number := 0 })]] },
          string_list := [] }
        (some (Node.mk .BLOCK
          [some (Node.mk .LIST
            [some (Node.mk .LIST
              [some (Node.mk .IDENTIFIER [] { identifier := "x" })] {})] {}),
           some (Node.mk .LIST
             [some (Node.mk .IDENTIFIER [] { identifier := "x" })] {})] {}))
      = .ok ({ local_symbols :=
                 { symbols := [{ name := "x", symtype := .SYMBOL_GLOBAL_VAR, sequence_number := 0 },
                               { name := "x", symtype := .SYMBOL_LOCAL_VAR, sequence_number := 1 }],
                   hashmap := [[("x", { name := "x", symtype := .SYMBOL_GLOBAL_VAR, sequence_number := 0 })]] },
               string_list := [] },
             some (Node.mk .BLOCK
               [some (Node.mk .LIST
                 [some (Node.mk .LIST
                   [some (Node.mk .IDENTIFIER [] { identifier := "x" })] {})] {}),
                some (Node.mk .LIST
                  [some (Node.mk .IDENTIFIER []
                    { identifier := "x",
                      symbol := some
                        { name := "x", symtype := .SYMBOL_LOCAL_VAR,
                          sequence_number := 1 } })] {})] {})) :=
  ⟨duplicate_collides_shadowing_resolves_inner.1
      { symbols := [{ name := "x", symtype := .SYMBOL_GLOBAL_VAR, sequence_number := 0 }],
        hashmap := [[("x", { name := "x", symtype := .SYMBOL_GLOBAL_VAR, sequence_number := 0 })]] }
      "x" .SYMBOL_LOCAL_VAR 0
      [("x", { name := "x", symtype := .SYMBOL_GLOBAL_VAR, sequence_number := 0 })] []
      rfl (by decide),
   duplicate_collides_shadowing_resolves_inner.2.1
      { local_symbols :=
          { symbols := [{ name := "x", symtype := .SYMBOL_GLOBAL_VAR, sequence_number := 0 }],
            hashmap := [[("x", { name := "x", symtype := .SYMBOL_GLOBAL_VAR, sequence_number := 0 })]] },
        string_list := [] }
      "x" none,
   duplicate_collides_shadowing_resolves_inner.2.2
      { local_symbols :=
          { symbols := [{ name := "x", symtype := .SYMBOL_GLOBAL_VAR, sequence_number := 0 }],
            hashmap := [[("x", { name := "x", symtype := .SYMBOL_GLOBAL_VAR, sequence_number := 0 })]] },
        string_list := [] }
      "x" { name := "x", symtype := .SYMBOL_GLOBAL_VAR, sequence_number := 0 }
      (by simp [symbol_hashmap_lookup, List.find?])⟩

end Vslc
